import Mathlib

/-!
Shallow embedding of the SELECT execution pipeline of the gluesql repository.

Embedded sources:
* `src/core/src/executor/select/mod.rs` — `get_labels`, `into_rows`,
  `select_with_labels`;
* `src/src/executor/fetch.rs` — `fetch_columns` (an earlier revision of the
  engine, using the nom-sql AST);
* `src/core/src/ast_builder/expr/mod.rs` — `ExprNode` and its
  `TryFrom<ExprNode> for Expr` conversion.

Rust `Result<T>` is embedded as `Except Error T`; a lazy `TryStream` of rows
is embedded as a `List (Except Error Row)` of its items, with the driver-side
"terminate at the first error" consumption embedded separately as
`take_until_err`.  A Rust panic (`unwrap` / out-of-bounds indexing) is
embedded as `Option.none` at the outermost level: a function that can panic
returns `Option (...)`, with `none` meaning the panic.

External collaborators whose code is not part of the embedded sources
(the expression evaluator, storage, the stage constructors) are abstracted
as explicit function parameters bundled in environment structures, so every
theorem quantifies over their behaviour.
-/

namespace GlueSQL

/-- Errors surfaced by the embedded code.  `numberOfValuesDifferent` is
`RowError::NumberOfValuesDifferent`, `tableAliasNotFound` is
`SelectError::TableAliasNotFound`.  Collaborator-produced errors are
abstracted as `other`. -/
inductive Error where
  | numberOfValuesDifferent
  | tableAliasNotFound (aliasName : String)
  | invalidLimitOffsetValue
  | other (msg : String)
deriving DecidableEq, Repr

/-- The collaborators used by `into_rows` (`evaluate_stateless`,
`Evaluated::try_into_value`, `TryInto<Value>`, `Value::get_type`), abstracted
over the expression type `E`, evaluated type `Ev`, value type `V` and data
type `D`. -/
structure ValuesEnv (E Ev V D : Type) where
  evaluate_stateless : E → Except Error Ev
  try_into_value : Ev → D → Bool → Except Error V
  try_into : Ev → Except Error V
  get_type : V → Option D

variable {E Ev V D : Type}

/-- One row of the `scan` closure body of `into_rows`: walk
`column_types.iter_mut().zip(exprs.iter())`, evaluating each expression and
either coercing to the already-inferred column type (`try_into_value` with
lenient flag `true`) or inferring the column type from this value
(`*column_type = value.get_type()`).  Returns the column-type state as
mutated so far together with the row result; the `collect::<Result<Vec<_>>>`
short-circuit means elements after the first error leave their state
untouched. -/
def eval_values_row (env : ValuesEnv E Ev V D) :
    List (Option D) → List E → List (Option D) × Except Error (List V)
  | cts, [] => (cts, .ok [])
  | [], _ => ([], .ok [])
  | ct :: cts, e :: es =>
    match env.evaluate_stateless e with
    | .error err => (ct :: cts, .error err)
    | .ok evaluated =>
      match ct with
      | some dt =>
        match env.try_into_value evaluated dt true with
        | .error err => (some dt :: cts, .error err)
        | .ok v =>
          let r := eval_values_row env cts es
          (some dt :: r.1, r.2.map (fun vs => v :: vs))
      | none =>
        match env.try_into evaluated with
        | .error err => (none :: cts, .error err)
        | .ok v =>
          let r := eval_values_row env cts es
          (env.get_type v :: r.1, r.2.map (fun vs => v :: vs))

/-- The labels `into_rows` synthesizes: `column1, ..., columnN`. -/
def values_labels (n : Nat) : List String :=
  (List.range n).map (fun i => "column" ++ toString (i + 1))

/-- The `scan` of `into_rows`: stateful pass over the tuple list, emitting
`RowError::NumberOfValuesDifferent` for a tuple whose arity differs from the
first tuple's, and otherwise evaluating the tuple against the running
column-type state. -/
def into_rows_scan (env : ValuesEnv E Ev V D) (first_len : Nat) :
    List (Option D) → List (List E) → List (Except Error (List V))
  | _, [] => []
  | cts, exprs :: rest =>
    if exprs.length ≠ first_len then
      .error .numberOfValuesDifferent :: into_rows_scan env first_len cts rest
    else
      let r := eval_values_row env cts exprs
      r.2 :: into_rows_scan env first_len r.1 rest

/-- `into_rows` of `select/mod.rs`: `exprs_list[0]` is indexed
unconditionally, so the empty list panics — embedded as `none`. -/
def into_rows (env : ValuesEnv E Ev V D) :
    List (List E) → Option (List (Except Error (List V)) × List String)
  | [] => none
  | first :: rest =>
    some (into_rows_scan env first.length
            (List.replicate first.length none) (first :: rest),
          values_labels first.length)

/-- The spec's description (§4.6) of how a `VALUES` row after the first is
processed once every column type has been inferred: each value is evaluated
and coerced to its column's inferred type with lenient `try_into_value`;
the first failure is the row's reported error.  Used to state that
`eval_values_row` on a fully-inferred column-type state is exactly this. -/
def coerce_row (env : ValuesEnv E Ev V D) :
    List D → List E → Except Error (List V)
  | _, [] => .ok []
  | [], _ :: _ => .ok []
  | dt :: dts, e :: es => do
    let ev ← env.evaluate_stateless e
    let v ← env.try_into_value ev dt true
    let vs ← coerce_row env dts es
    .ok (v :: vs)

/-- Driver-side consumption of a fallible stream: items are pulled until the
first error, which is yielded and then the stream is abandoned. -/
def take_until_err {α : Type} : List (Except Error α) → List (Except Error α)
  | [] => []
  | .ok a :: rest => .ok a :: take_until_err rest
  | .error e :: _ => [.error e]

/-- `SelectItem` as consumed by `get_labels`: an unqualified wildcard, a
qualified wildcard (qualified by an `ObjectName` target — embedded as the
alias string that `get_name` extracts from it), or an expression item, of
which `get_labels` only reads the `label` field. -/
inductive SelectItem where
  | wildcard
  | qualifiedWildcard (target : String)
  | exprItem (label : String)
deriving DecidableEq, Repr

/-- The labels one projection item contributes in `get_labels`:
a wildcard expands to the base columns chained with every joined relation's
columns (base columns only when no join-column list is supplied); a
qualified wildcard expands to the base columns when its target equals the
base alias, otherwise to the first joined relation with that alias, erroring
with `TableAliasNotFound` when none matches (and expanding to nothing when
no join-column list is supplied); an expression item yields its label. -/
def get_labels_item (table_alias : String) (columns : List String)
    (join_columns : Option (List (String × List String))) :
    SelectItem → Except Error (List String)
  | .wildcard =>
    match join_columns with
    | some jc => .ok (columns ++ jc.flatMap (fun p => p.2))
    | none => .ok columns
  | .qualifiedWildcard target =>
    if table_alias = target then .ok columns
    else
      match join_columns with
      | some jc =>
        match jc.find? (fun p => p.1 == target) with
        | some p => .ok p.2
        | none => .error (.tableAliasNotFound target)
      | none => .ok []
  | .exprItem label => .ok [label]

/-- `get_labels` of `select/mod.rs`: `flat_map` of `get_labels_item` over the
projection, collected into a single `Result` (first error wins, as in
`collect::<Result<_>>` over the lazily flat-mapped iterator). -/
def get_labels (table_alias : String) (columns : List String)
    (join_columns : Option (List (String × List String))) :
    List SelectItem → Except Error (List String)
  | [] => .ok []
  | item :: rest => do
    let ls ← get_labels_item table_alias columns join_columns item
    let rs ← get_labels table_alias columns join_columns rest
    .ok (ls ++ rs)

/-- A `query.limit` / `query.offset` expression: a number literal (the
`BigDecimal` embedded as a rational) or any other expression. -/
inductive LimitExpr where
  | numberLit (q : Rat)
  | otherExpr
deriving DecidableEq

/-- The `Limit` stage state: parsed limit (`none` = unbounded) and offset. -/
structure Limit where
  limit : Option Nat
  offset : Nat
deriving DecidableEq, Repr

/-- Modelled from the spec: the value check inside `Limit::new` (the body of
`executor/limit.rs` is not among the embedded sources).  Spec §4.7:
"Missing offset defaults to 0; missing limit means unbounded.  Negative or
non-integer literal values are a reported error at construction time, not at
iteration time." -/
def parse_limit_value : LimitExpr → Except Error Nat
  | .numberLit q =>
    if q < 0 ∨ q.den ≠ 1 then .error .invalidLimitOffsetValue
    else .ok q.num.toNat
  | .otherExpr => .error .invalidLimitOffsetValue

/-- A LIMIT/OFFSET literal the spec calls invalid: a number literal that is
negative or non-integer. -/
def invalid_limit_literal : LimitExpr → Prop
  | .numberLit q => q < 0 ∨ q.den ≠ 1
  | .otherExpr => False

/-- Modelled from the spec: `Limit::new(query.limit, query.offset)` —
construction-time validation of both literals (see `parse_limit_value`). -/
def Limit.new (limit offset : Option LimitExpr) : Except Error Limit := do
  let l ← match limit with
    | some e => (parse_limit_value e).map some
    | none => pure none
  let o ← match offset with
    | some e => parse_limit_value e
    | none => pure 0
  .ok ⟨l, o⟩

/-- Modelled from the spec: `Limit::apply` — "apply OFFSET (skip first N)
then LIMIT (take next M) to the final row stream, in that order, operating
purely positionally" (§4.7). -/
def Limit.apply {α : Type} (lim : Limit) (rows : List (Except Error α)) :
    List (Except Error α) :=
  let r := rows.drop lim.offset
  match lim.limit with
  | some m => r.take m
  | none => r

/-- `BlendContext`: one join-composed source record — relation alias, the
relation's (shared) column list, the optional materialized row, and the link
to the next outer context. -/
inductive BlendContext (R : Type) where
  | mk (tableAlias : String) (columns : List String) (row : Option R)
       (next : Option (BlendContext R))

/-- `TryStreamExt::try_filter_map`: `ok` items are mapped to
`Except Error (Option β)` — errors become error items, `none` drops the
item; error items pass through. -/
def try_filter_map {α β : Type} (f : α → Except Error (Option β)) :
    List (Except Error α) → List (Except Error β)
  | [] => []
  | .error e :: rest => .error e :: try_filter_map f rest
  | .ok a :: rest =>
    match f a with
    | .error e => .error e :: try_filter_map f rest
    | .ok none => try_filter_map f rest
    | .ok (some b) => .ok b :: try_filter_map f rest

/-- `TryStreamExt::and_then`: each `ok` item is replaced by `f`'s fallible
result; error items pass through. -/
def stream_and_then {α β : Type} (f : α → Except Error β) :
    List (Except Error α) → List (Except Error β)
  | [] => []
  | .error e :: rest => .error e :: stream_and_then f rest
  | .ok a :: rest => f a :: stream_and_then f rest

/-- `TableWithJoins { relation, joins }`, over an abstract table-factor type
`TF` and join-clause type `J`. -/
structure TableWithJoins (TF J : Type) where
  relation : TF
  joins : List J

/-- The destructured `Select` statement: `from`, `selection` (WHERE),
`projection`, `group_by`, `having`, `order_by` (each ORDER BY key an
expression with its ascending flag). -/
structure SelectBody (E TF J : Type) where
  from_clause : TableWithJoins TF J
  selection : Option E
  projection : List SelectItem
  group_by : List E
  having : Option E
  order_by : List (E × Bool)

/-- `SetExpr`: a `SELECT` statement body or a `VALUES` tuple list. -/
inductive SetExpr (E TF J : Type) where
  | select (s : SelectBody E TF J)
  | values (values_list : List (List E))

/-- `Query`: body plus the `LIMIT` / `OFFSET` expressions. -/
structure Query (E TF J : Type) where
  body : SetExpr E TF J
  limit : Option LimitExpr
  offset : Option LimitExpr

/-- The collaborators `select_with_labels` calls whose code is outside the
embedded sources: `get_alias`, the fetch functions, and the pipeline stages
(`Join`, `Filter`, `Aggregator`, `Sort`, `Blend`), each abstracted as a
function taking exactly the data its source constructor and `apply` receive.
`FC` is the `FilterContext` type, `A` the aggregate payload paired with a
context by `Aggregator`/`Sort`, rows are `List V`. -/
structure PipelineEnv (E Ev V D A TF J FC : Type) where
  values_env : ValuesEnv E Ev V D
  get_alias : TF → Except Error String
  fetch_relation_columns : TF → Except Error (List String)
  fetch_relation_rows : TF → Except Error (List (Except Error (List V)))
  fetch_join_columns : List J → Except Error (List (String × List String))
  join_apply : List J → List (List String) → Option FC →
    List (Except Error (BlendContext (List V))) →
    Except Error (List (Except Error (BlendContext (List V))))
  filter_check : Option E → Option FC → BlendContext (List V) →
    Except Error Bool
  aggregate_apply : List SelectItem → List E → Option E → Option FC →
    List (Except Error (BlendContext (List V))) →
    Except Error (List (Except Error (A × BlendContext (List V))))
  sort_apply : List (E × Bool) → Option FC →
    List (Except Error (A × BlendContext (List V))) →
    Except Error (List (Except Error (A × BlendContext (List V))))
  blend_apply : List SelectItem → Option FC → A → BlendContext (List V) →
    Except Error (List V)

variable {A TF J FC : Type}

/-- The base-relation row wrapping of `select_with_labels` (lines 189–199):
each fetched row becomes `BlendContext::new(get_alias(relation)?, columns,
Some(row), None)`, errors per item. -/
def wrap_rows (env : PipelineEnv E Ev V D A TF J FC) (relation : TF)
    (columns : List String) (fetched : List (Except Error (List V))) :
    List (Except Error (BlendContext (List V))) :=
  fetched.map (fun item => do
    let row ← item
    let a ← env.get_alias relation
    Except.ok (BlendContext.mk a columns (some row) none))

/-- The WHERE stage of `select_with_labels` (lines 247–256):
`try_filter_map` of `Filter::check`, keeping a context iff the check passes
(`pass.then(|| blend_context)`). -/
def filter_stage (env : PipelineEnv E Ev V D A TF J FC)
    (selection : Option E) (filter_context : Option FC)
    (rows : List (Except Error (BlendContext (List V)))) :
    List (Except Error (BlendContext (List V))) :=
  try_filter_map (fun ctx =>
    (env.filter_check selection filter_context ctx).map
      (fun pass => if pass then some ctx else none)) rows

/-- The label computation of `select_with_labels` (lines 202–211):
`get_labels(projection, get_alias(relation)?, &columns,
Some(&join_columns))?` when labels are requested, `vec![]` otherwise. -/
def compute_labels (env : PipelineEnv E Ev V D A TF J FC) (relation : TF)
    (columns : List String) (join_columns : List (String × List String))
    (projection : List SelectItem) (with_labels : Bool) :
    Except Error (List String) :=
  if with_labels then do
    let a ← env.get_alias relation
    get_labels a columns (some join_columns) projection
  else Except.ok []

/-- `select_with_labels` of `select/mod.rs`.  The `VALUES` body runs
`Limit::new` then `into_rows` then `Limit::apply`; the `SELECT` body fetches
the base relation's columns and rows, wraps each row in a `BlendContext`,
computes labels (only when requested), then applies join, the WHERE filter
(`try_filter_map` over `Filter::check`), aggregation, sort, blend
(`and_then` over `Blend::apply`) and limit, in that order.  `none` embeds
the panic of `into_rows` on an empty `VALUES` list. -/
def select_with_labels (env : PipelineEnv E Ev V D A TF J FC)
    (q : Query E TF J) (filter_context : Option FC) (with_labels : Bool) :
    Option (Except Error (List String × List (Except Error (List V)))) :=
  match q.body with
  | .values values_list =>
    match Limit.new q.limit q.offset with
    | .error e => some (.error e)
    | .ok limit =>
      match into_rows env.values_env values_list with
      | none => none
      | some (rows, labels) => some (.ok (labels, limit.apply rows))
  | .select s =>
    some (do
      let relation := s.from_clause.relation
      let columns ← env.fetch_relation_columns relation
      let fetched ← env.fetch_relation_rows relation
      let rows := wrap_rows env relation columns fetched
      let join_columns ← env.fetch_join_columns s.from_clause.joins
      let labels ← compute_labels env relation columns join_columns
        s.projection with_labels
      let join_cols_only := join_columns.map (fun p => p.2)
      let limit ← Limit.new q.limit q.offset
      let joined ← env.join_apply s.from_clause.joins join_cols_only
        filter_context rows
      let filtered := filter_stage env s.selection filter_context joined
      let aggregated ← env.aggregate_apply s.projection s.group_by s.having
        filter_context filtered
      let sorted ← env.sort_apply s.order_by filter_context aggregated
      let blended := stream_and_then
        (fun p => env.blend_apply s.projection filter_context p.1 p.2) sorted
      Except.ok (labels, limit.apply blended))

/-- `select`: `select_with_labels` with `with_labels = false`, dropping the
(empty) label list. -/
def select (env : PipelineEnv E Ev V D A TF J FC) (q : Query E TF J)
    (filter_context : Option FC) :
    Option (Except Error (List (Except Error (List V)))) :=
  (select_with_labels env q filter_context false).map
    (fun r => r.map (fun p => p.2))

/-! `src/src/executor/fetch.rs` — an earlier engine revision over the
nom-sql AST; its names live in the `Fetch` namespace. -/

namespace Fetch

/-- nom-sql `Column` (constructed and passed through only). -/
structure Column where
  name : String
  table : Option String
deriving DecidableEq, Repr

/-- nom-sql `ColumnSpecification { column, .. }`: the column plus the
remaining specification fields (SQL type, constraints), which
`fetch_columns` discards via `..` — abstracted as an opaque payload `P`. -/
structure ColumnSpecification (P : Type) where
  column : Column
  rest : P

/-- The schema value returned by `Store::get_schema` (a
`CreateTableStatement`): its `fields` are the declared column
specifications in declaration order. -/
structure Schema (P : Type) where
  fields : List (ColumnSpecification P)

/-- nom-sql `Table`: name plus optional alias. -/
structure Table where
  name : String
  table_alias : Option String

/-- The `Store` trait surface `fetch_columns` consumes. -/
structure Store (P : Type) where
  get_schema : String → Except Error (Schema P)

/-- `fetch_columns` of `src/src/executor/fetch.rs`:
`storage.get_schema(&table.name)?.fields` mapped to each specification's
`column`. -/
def fetch_columns {P : Type} (storage : Store P) (table : Table) :
    Except Error (List Column) :=
  (storage.get_schema table.name).map (fun schema =>
    schema.fields.map (fun cs => cs.column))

end Fetch

/-! `src/core/src/ast_builder/expr/mod.rs` — `ExprNode` and its
`TryFrom<ExprNode> for Expr` conversion. -/

/-- `ast::BinaryOperator` (external AST, embedded by shape). -/
inductive BinaryOperator where
  | plus | minus | eq | gt | lt
deriving DecidableEq, Repr

/-- `ast::UnaryOperator` (external AST, embedded by shape). -/
inductive UnaryOperator where
  | notOp | minusOp
deriving DecidableEq, Repr

/-- `ast::DateTimeField` (external AST, embedded by shape). -/
inductive DateTimeField where
  | year | month | day
deriving DecidableEq, Repr

/-- `ast::AstLiteral` (external AST, embedded by shape; `Number`'s
`BigDecimal` is embedded as an integer, enough for `From<i64>`). -/
inductive AstLiteral where
  | number (n : Int)
  | quotedString (s : String)
deriving DecidableEq, Repr

/-- `ast::Expr` — the target of the conversion, over an abstract aggregate
payload `G` (`ast::Aggregate`). -/
inductive Expr (G : Type) where
  | identifier (s : String)
  | compoundIdentifier (idents : List String)
  | between (expr : Expr G) (negated : Bool) (low : Expr G) (high : Expr G)
  | binaryOp (left : Expr G) (op : BinaryOperator) (right : Expr G)
  | unaryOp (op : UnaryOperator) (expr : Expr G)
  | extract (field : DateTimeField) (expr : Expr G)
  | isNull (expr : Expr G)
  | isNotNull (expr : Expr G)
  | inList (expr : Expr G) (list : List (Expr G)) (negated : Bool)
  | caseE (operand : Option (Expr G)) (when_then : List (Expr G × Expr G))
      (else_result : Option (Expr G))
  | nested (expr : Expr G)
  | literal (lit : AstLiteral)
  | aggregate (a : G)

/-- `ExprNode` of the ast-builder, over abstract payload types for
`FunctionNode` (`F`) and `AggregateNode` (`Ag`), whose conversions live in
other modules. -/
inductive ExprNode (G F Ag : Type) where
  | exprv (e : Expr G)
  | sqlExpr (s : String)
  | identifier (s : String)
  | compoundIdentifier (idents : List String)
  | between (expr : ExprNode G F Ag) (negated : Bool)
      (low : ExprNode G F Ag) (high : ExprNode G F Ag)
  | binaryOp (left : ExprNode G F Ag) (op : BinaryOperator)
      (right : ExprNode G F Ag)
  | unaryOp (op : UnaryOperator) (expr : ExprNode G F Ag)
  | extract (field : DateTimeField) (expr : ExprNode G F Ag)
  | isNull (expr : ExprNode G F Ag)
  | isNotNull (expr : ExprNode G F Ag)
  | inList (expr : ExprNode G F Ag) (list : List (ExprNode G F Ag))
      (negated : Bool)
  | caseE (operand : Option (ExprNode G F Ag))
      (when_then : List (ExprNode G F Ag × ExprNode G F Ag))
      (else_result : Option (ExprNode G F Ag))
  | nested (expr : ExprNode G F Ag)
  | function (f : F)
  | aggregate (a : Ag)

/-- The collaborators of the conversion whose code is in other modules:
`parse_expr`, `translate_expr` (over an abstract parsed-SQL type `SqlE`),
and the `TryFrom` conversions of `FunctionNode` and `AggregateNode` (which
may themselves recurse into `ExprNode`s, hence may also panic — `none`). -/
structure AstEnv (G F Ag SqlE : Type) where
  parse_expr : String → Except Error SqlE
  translate_expr : SqlE → Except Error (Expr G)
  function_try_from : F → Option (Except Error (Expr G))
  aggregate_try_from : Ag → Option (Except Error G)

variable {G F Ag SqlE : Type}

/-- The `?` operator inside a computation that may also panic: `none` (a
panic) and `some (.error e)` (an early `Err` return) both propagate. -/
def panicBind {α β : Type} (x : Option (Except Error α))
    (f : α → Option (Except Error β)) : Option (Except Error β) :=
  match x with
  | none => none
  | some (.error e) => some (.error e)
  | some (.ok a) => f a

/-- `Result::unwrap`: an `Err` value panics (`none`); a panic below
propagates. -/
def panicUnwrap {α : Type} (x : Option (Except Error α)) : Option α :=
  match x with
  | none => none
  | some (.error _) => none
  | some (.ok a) => some a

mutual

/-- The `TryFrom<ExprNode> for Expr` conversion.  Every variant except
`Case` propagates child-conversion failures with `?` (`panicBind`); the
`Case` arm calls `.unwrap()` on the operand, every when/then pair, and the
else branch, so a child-conversion `Err` there panics (`none`). -/
def expr_try_from (env : AstEnv G F Ag SqlE) :
    ExprNode G F Ag → Option (Except Error (Expr G))
  | .exprv e => some (.ok e)
  | .sqlExpr s =>
    match env.parse_expr s with
    | .error e => some (.error e)
    | .ok parsed => some (env.translate_expr parsed)
  | .identifier s => some (.ok (.identifier s))
  | .compoundIdentifier ids => some (.ok (.compoundIdentifier ids))
  | .between expr negated low high =>
    panicBind (expr_try_from env expr) fun e =>
    panicBind (expr_try_from env low) fun l =>
    panicBind (expr_try_from env high) fun h =>
    some (.ok (.between e negated l h))
  | .binaryOp left op right =>
    panicBind (expr_try_from env left) fun l =>
    panicBind (expr_try_from env right) fun r =>
    some (.ok (.binaryOp l op r))
  | .unaryOp op expr =>
    panicBind (expr_try_from env expr) fun e =>
    some (.ok (.unaryOp op e))
  | .extract field expr =>
    panicBind (expr_try_from env expr) fun e =>
    some (.ok (.extract field e))
  | .isNull expr =>
    panicBind (expr_try_from env expr) fun e => some (.ok (.isNull e))
  | .isNotNull expr =>
    panicBind (expr_try_from env expr) fun e => some (.ok (.isNotNull e))
  | .inList expr list negated =>
    panicBind (expr_try_from env expr) fun e =>
    panicBind (expr_try_from_list env list) fun ls =>
    some (.ok (.inList e ls negated))
  | .nested expr =>
    panicBind (expr_try_from env expr) fun e => some (.ok (.nested e))
  | .function f => env.function_try_from f
  | .aggregate a =>
    panicBind (env.aggregate_try_from a) fun g =>
    some (.ok (.aggregate g))
  | .caseE operand when_then else_result =>
    match (match operand with
           | none => some none
           | some op => (panicUnwrap (expr_try_from env op)).map some : Option (Option (Expr G))) with
    | none => none
    | some operand_expr =>
      match expr_try_from_pairs env when_then with
      | none => none
      | some when_then_expr =>
        match (match else_result with
               | none => some none
               | some el => (panicUnwrap (expr_try_from env el)).map some :
                 Option (Option (Expr G))) with
        | none => none
        | some else_result_expr =>
          some (.ok (.caseE operand_expr when_then_expr else_result_expr))

/-- `list.into_iter().map(Expr::try_from).collect::<Result<Vec<_>>>()` of
the `InList` arm: first `Err` wins; a nested panic propagates. -/
def expr_try_from_list (env : AstEnv G F Ag SqlE) :
    List (ExprNode G F Ag) → Option (Except Error (List (Expr G)))
  | [] => some (.ok [])
  | e :: rest =>
    panicBind (expr_try_from env e) fun v =>
    panicBind (expr_try_from_list env rest) fun vs =>
    some (.ok (v :: vs))

/-- The `when_then` mapping of the `Case` arm: each side is converted and
`.unwrap()`ped, so any `Err` panics (`none`). -/
def expr_try_from_pairs (env : AstEnv G F Ag SqlE) :
    List (ExprNode G F Ag × ExprNode G F Ag) →
    Option (List (Expr G × Expr G))
  | [] => some []
  | (w, t) :: rest =>
    match panicUnwrap (expr_try_from env w) with
    | none => none
    | some we =>
      match panicUnwrap (expr_try_from env t) with
      | none => none
      | some te =>
        match expr_try_from_pairs env rest with
        | none => none
        | some ps => some ((we, te) :: ps)

end

/-! Concrete collaborator instantiations used by witnesses. -/

/-- A concrete `ValuesEnv`: expressions, evaluated values and values are all
numbers, evaluation and both conversions are the identity, and every value
has the single data type `()`. -/
def natValuesEnv : ValuesEnv Nat Nat Nat Unit where
  evaluate_stateless := fun e => .ok e
  try_into_value := fun ev _ _ => .ok ev
  try_into := fun ev => .ok ev
  get_type := fun _ => some ()

/-- A concrete `ValuesEnv` in which the value `0` behaves like SQL `NULL`:
it has no definite type (`get_type = none`), and in which the typed
coercion `try_into_value` always fails while the untyped conversion
`try_into` succeeds — separating the two conversion paths observably. -/
def nullFirstValuesEnv : ValuesEnv Nat Nat Nat Unit where
  evaluate_stateless := fun e => .ok e
  try_into_value := fun _ _ _ => .error (.other "coercion failed")
  try_into := fun ev => .ok ev
  get_type := fun v => if v = 0 then none else some ()

/-- A concrete `PipelineEnv` over `natValuesEnv` with pass-through stage
behaviours. -/
def natPipelineEnv : PipelineEnv Nat Nat Nat Unit Unit Unit Unit Unit where
  values_env := natValuesEnv
  get_alias := fun _ => .ok "t"
  fetch_relation_columns := fun _ => .ok ["a"]
  fetch_relation_rows := fun _ => .ok [.ok [7]]
  fetch_join_columns := fun _ => .ok []
  join_apply := fun _ _ _ rows => .ok rows
  filter_check := fun _ _ _ => .ok true
  aggregate_apply := fun _ _ _ _ rows =>
    .ok (rows.map (fun r => r.map (fun c => ((), c))))
  sort_apply := fun _ _ rows => .ok rows
  blend_apply := fun _ _ _ ctx =>
    match ctx with
    | .mk _ _ row _ => .ok (row.getD [])

/-- A concrete `Fetch.Store` with one known table `t(a)`. -/
def fetchStoreExample : Fetch.Store Unit where
  get_schema := fun n =>
    if n = "t" then .ok ⟨[⟨⟨"a", none⟩, ()⟩]⟩
    else .error (.other "table not found")

/-- A concrete `AstEnv` whose parser rejects every string. -/
def failAstEnv : AstEnv Unit Unit Unit Unit where
  parse_expr := fun _ => .error (.other "parse error")
  translate_expr := fun _ => .ok (.identifier "x")
  function_try_from := fun _ => some (.ok (.identifier "f"))
  aggregate_try_from := fun _ => some (.ok ())

/-! Theorems for the claims, with general-purpose helper lemmas. -/

@[simp]
theorem except_ok_bind {α β : Type} (a : α) (f : α → Except Error β) :
    (Except.ok a >>= f) = f a := rfl

@[simp]
theorem except_error_bind {α β : Type} (e : Error)
    (f : α → Except Error β) :
    ((Except.error e : Except Error α) >>= f) = Except.error e := rfl

@[simp]
theorem except_map_ok {α β : Type} (a : α) (f : α → β) :
    Except.map f (Except.ok a : Except Error α) = Except.ok (f a) := rfl

@[simp]
theorem except_map_error {α β : Type} (e : Error) (f : α → β) :
    Except.map f (Except.error e : Except Error α) = Except.error e := rfl

@[simp]
theorem except_bind_def {α β : Type} (x : Except Error α)
    (f : α → Except Error β) : x.bind f = x >>= f := by
  cases x <;> rfl

/-- C7: for every `VALUES` query with a non-empty tuple list, `into_rows`
synthesizes the labels `column1, …, columnN` with `N` the arity of the
first tuple; for `N = 2` that is exactly `["column1", "column2"]`. -/
theorem into_rows_labels (env : ValuesEnv E Ev V D) (first : List E)
    (rest : List (List E)) :
    (∃ rows, into_rows env (first :: rest) =
      some (rows, (List.range first.length).map
        (fun i => "column" ++ toString (i + 1)))) ∧
    (List.range 2).map (fun i => "column" ++ toString (i + 1)) =
      ["column1", "column2"] :=
  ⟨⟨_, rfl⟩, rfl⟩

/-- C9: `into_rows` indexes `exprs_list[0]` unconditionally, so it panics
(`none`) on the empty `VALUES` list — as does `select_with_labels` on a
`VALUES` query with an empty tuple list — while for every non-empty list
the indexing is safe and a result is produced. -/
theorem into_rows_empty_list_panics (env : ValuesEnv E Ev V D)
    (first : List E) (rest : List (List E))
    (penv : PipelineEnv E Ev V D A TF J FC) (fc : Option FC) (wl : Bool) :
    into_rows env ([] : List (List E)) = none ∧
    (into_rows env (first :: rest)).isSome = true ∧
    select_with_labels penv
      { body := .values [], limit := none, offset := none } fc wl = none :=
  ⟨rfl, rfl, rfl⟩

/-- C8: `fetch_columns` returns, for a known table, exactly the schema's
declared columns in declaration order (one per column specification), and
propagates a `get_schema` error unchanged. -/
theorem fetch_columns_spec {P : Type} (storage : Fetch.Store P)
    (table : Fetch.Table) :
    (∀ schema, storage.get_schema table.name = .ok schema →
      Fetch.fetch_columns storage table =
        .ok (schema.fields.map (fun cs => cs.column))) ∧
    (∀ e, storage.get_schema table.name = .error e →
      Fetch.fetch_columns storage table = .error e) := by
  constructor
  · intro schema h
    simp [Fetch.fetch_columns, h, Except.map]
  · intro e h
    simp [Fetch.fetch_columns, h, Except.map]

/-- C8 witness: on the concrete store, `fetch_columns` of table `t` gives
its one declared column and an unknown table's error passes through. -/
theorem fetch_columns_spec_witness :
    Fetch.fetch_columns fetchStoreExample ⟨"t", none⟩ =
      .ok [⟨"a", none⟩] ∧
    Fetch.fetch_columns fetchStoreExample ⟨"u", none⟩ =
      .error (.other "table not found") :=
  ⟨(fetch_columns_spec fetchStoreExample ⟨"t", none⟩).1 ⟨[⟨⟨"a", none⟩, ()⟩]⟩
      rfl,
   (fetch_columns_spec fetchStoreExample ⟨"u", none⟩).2
      (.other "table not found") rfl⟩

/-- Helper: a tuple of arity different from `first_len` yields the
`NumberOfValuesDifferent` item at its own index, whatever the column-type
state. -/
theorem into_rows_scan_get_mismatch (env : ValuesEnv E Ev V D)
    (first_len : Nat) :
    ∀ (l : List (List E)) (cts : List (Option D)) (i : Nat)
      (hi : i < l.length),
      (l.get ⟨i, hi⟩).length ≠ first_len →
      (into_rows_scan env first_len cts l).get? i =
        some (.error .numberOfValuesDifferent) := by
  intro l
  induction l with
  | nil => intro cts i hi h; exact absurd hi (by simp)
  | cons exprs rest ih =>
    intro cts i hi h
    cases i with
    | zero =>
      simp only [List.get] at h
      simp [into_rows_scan, if_pos h]
    | succ n =>
      simp only [List.get] at h
      have hn : n < rest.length := Nat.lt_of_succ_lt_succ hi
      by_cases hq : exprs.length ≠ first_len
      · simp only [into_rows_scan, if_pos hq, List.get?]
        exact ih _ n hn h
      · simp only [into_rows_scan, if_neg hq, List.get?]
        exact ih _ n hn h

/-- Helper: a stream with an error item at index `i` is consumed for at
most `i + 1` items. -/
theorem take_until_err_length_le {α : Type} :
    ∀ (l : List (Except Error α)) (i : Nat) (e : Error),
      l.get? i = some (.error e) → (take_until_err l).length ≤ i + 1 := by
  intro l
  induction l with
  | nil => intro i e h; simp [List.get?] at h
  | cons x rest ih =>
    intro i e h
    cases x with
    | error e0 => simp [take_until_err]
    | ok a =>
      cases i with
      | zero => simp [List.get?] at h
      | succ n =>
        simp only [List.get?] at h
        have := ih n e h
        simp only [take_until_err, List.length_cons]
        omega

/-- C2: for a `VALUES` list whose tuple at (0-based) position `i + 1` has a
different arity than the first tuple, the `(i + 1)`-th item of the produced
row stream is the reported `NumberOfValuesDifferent` error — not a padded
or truncated row — and driver-side consumption of the stream stops at or
before that error item. -/
theorem into_rows_arity_mismatch (env : ValuesEnv E Ev V D)
    (first : List E) (rest : List (List E)) (i : Nat)
    (hi : i < rest.length)
    (hne : (rest.get ⟨i, hi⟩).length ≠ first.length) :
    ∃ rows labels,
      into_rows env (first :: rest) = some (rows, labels) ∧
      rows.get? (i + 1) = some (.error .numberOfValuesDifferent) ∧
      (take_until_err rows).length ≤ i + 2 := by
  have herr : (into_rows_scan env first.length
      (List.replicate first.length none) (first :: rest)).get? (i + 1) =
      some (.error .numberOfValuesDifferent) := by
    have hif : ¬first.length ≠ first.length := by simp
    simp only [into_rows_scan, if_neg hif, List.get?]
    exact into_rows_scan_get_mismatch env first.length rest _ i hi hne
  exact ⟨_, _, rfl, herr, take_until_err_length_le _ _ _ herr⟩

/-- C2 witness: `VALUES (1,2), (1,2,3)` — the second stream item is the
arity-mismatch error and consumption stops there. -/
theorem into_rows_arity_mismatch_witness :
    ∃ rows labels,
      into_rows natValuesEnv [[1, 2], [1, 2, 3]] = some (rows, labels) ∧
      rows.get? 1 = some (.error .numberOfValuesDifferent) ∧
      (take_until_err rows).length ≤ 2 :=
  into_rows_arity_mismatch natValuesEnv [1, 2] [[1, 2, 3]] 0 (by decide)
    (by decide)

/-- Helper: `get_labels` over a concatenated projection is the fallible
concatenation of the two projections' labels. -/
theorem get_labels_append (a : String) (cols : List String)
    (jc : Option (List (String × List String))) :
    ∀ p1 p2 : List SelectItem,
      get_labels a cols jc (p1 ++ p2) =
        (get_labels a cols jc p1).bind (fun l1 =>
          (get_labels a cols jc p2).map (fun l2 => l1 ++ l2)) := by
  intro p1
  induction p1 with
  | nil =>
    intro p2
    simp only [List.nil_append, get_labels]
    cases get_labels a cols jc p2 <;> simp
  | cons item rest ih =>
    intro p2
    simp only [List.cons_append, get_labels, List.append_eq]
    rw [ih p2]
    cases get_labels_item a cols jc item with
    | error e => simp
    | ok l0 =>
      simp only [except_ok_bind]
      cases get_labels a cols jc rest with
      | error e => simp
      | ok l1 =>
        cases get_labels a cols jc p2 with
        | error e => simp
        | ok l2 => simp [List.append_assoc]

/-- C4: an unqualified wildcard item expands to the base relation's columns
followed by every joined relation's columns in join order; in a projection
this expansion is spliced between the surrounding items' labels. -/
theorem get_labels_wildcard (a : String) (cols : List String)
    (jc : List (String × List String)) (pre post : List SelectItem)
    (ls : List String)
    (hpre : get_labels a cols (some jc) pre = .ok ls) :
    get_labels a cols (some jc) (pre ++ SelectItem.wildcard :: post) =
      (get_labels a cols (some jc) post).map
        (fun rest => ls ++ ((cols ++ jc.flatMap (fun p => p.2)) ++ rest)) ∧
    get_labels a cols (some jc) [SelectItem.wildcard] =
      .ok (cols ++ jc.flatMap (fun p => p.2)) := by
  constructor
  · rw [get_labels_append a cols (some jc) pre
      (SelectItem.wildcard :: post), hpre]
    simp only [except_bind_def, except_ok_bind, get_labels, get_labels_item]
    cases get_labels a cols (some jc) post with
    | error e => simp
    | ok rest => simp [List.append_assoc]
  · simp [get_labels, get_labels_item]

/-- C4 witness: `SELECT * FROM a JOIN b` with `a(c1, c2)` and `b(d1)` —
the wildcard's labels are `a`'s columns then `b`'s. -/
theorem get_labels_wildcard_witness :
    get_labels "a" ["c1", "c2"] (some [("b", ["d1"])])
        ([] ++ SelectItem.wildcard :: []) =
      (get_labels "a" ["c1", "c2"] (some [("b", ["d1"])]) []).map
        (fun rest => [] ++
          ((["c1", "c2"] ++ [("b", ["d1"])].flatMap (fun p => p.2)) ++
            rest)) ∧
    get_labels "a" ["c1", "c2"] (some [("b", ["d1"])])
        [SelectItem.wildcard] =
      .ok (["c1", "c2"] ++ [("b", ["d1"])].flatMap (fun p => p.2)) :=
  get_labels_wildcard "a" ["c1", "c2"] [("b", ["d1"])] [] [] [] rfl

/-- C3: a qualified wildcard whose target alias matches neither the base
relation's alias nor any joined relation's alias makes `get_labels` report
`TableAliasNotFound` (whatever the surrounding projection items, provided
the preceding ones succeed); a target equal to the base alias expands to
the base columns, and a target matching a joined relation expands to
exactly that relation's columns. -/
theorem get_labels_qualified_wildcard (a : String) (cols : List String)
    (jc : List (String × List String)) (target : String)
    (pre post : List SelectItem) (ls : List String)
    (hpre : get_labels a cols (some jc) pre = .ok ls) :
    (a ≠ target → (∀ p ∈ jc, p.1 ≠ target) →
      get_labels a cols (some jc)
          (pre ++ SelectItem.qualifiedWildcard target :: post) =
        .error (.tableAliasNotFound target)) ∧
    get_labels_item a cols (some jc) (SelectItem.qualifiedWildcard a) =
      .ok cols ∧
    (∀ pr, a ≠ target →
      jc.find? (fun p => p.1 == target) = some pr →
      get_labels_item a cols (some jc)
        (SelectItem.qualifiedWildcard target) = .ok pr.2) := by
  refine ⟨?_, ?_, ?_⟩
  · intro hne hnj
    rw [get_labels_append a cols (some jc)
      pre (SelectItem.qualifiedWildcard target :: post), hpre]
    have hfind : jc.find? (fun p => p.1 == target) = none := by
      rw [List.find?_eq_none]
      intro p hp
      simpa using hnj p hp
    simp [Except.bind, get_labels, get_labels_item, if_neg hne, hfind]
  · simp [get_labels_item]
  · intro pr hne hfind
    simp [get_labels_item, if_neg hne, hfind]

/-- C3 witness: base alias `t`, joined relation `u`; `z.*` errors with
`TableAliasNotFound`, `t.*` gives `t`'s columns, `u.*` gives `u`'s. -/
theorem get_labels_qualified_wildcard_witness :
    (get_labels "t" ["x"] (some [("u", ["y"])])
        ([] ++ SelectItem.qualifiedWildcard "z" :: []) =
      .error (.tableAliasNotFound "z")) ∧
    get_labels_item "t" ["x"] (some [("u", ["y"])])
      (SelectItem.qualifiedWildcard "t") = .ok ["x"] ∧
    get_labels_item "t" ["x"] (some [("u", ["y"])])
      (SelectItem.qualifiedWildcard "u") = .ok ["y"] := by
  have h := get_labels_qualified_wildcard "t" ["x"] [("u", ["y"])] "z"
    [] [] [] rfl
  have hu := get_labels_qualified_wildcard "t" ["x"] [("u", ["y"])] "u"
    [] [] [] rfl
  exact ⟨h.1 (by decide) (by decide), h.2.1,
    hu.2.2 ("u", ["y"]) (by decide) rfl⟩

/-- Helper: when the first row (processed from the all-`None` column-type
state) fully succeeds, the resulting column-type state is exactly the
`get_type` of each of its values. -/
theorem eval_values_row_infer_state (env : ValuesEnv E Ev V D) :
    ∀ (es : List E) (vals : List V),
      (eval_values_row env (List.replicate es.length none) es).2 =
        .ok vals →
      (eval_values_row env (List.replicate es.length none) es).1 =
        vals.map env.get_type := by
  intro es
  induction es with
  | nil =>
    intro vals h
    simp only [eval_values_row] at h
    cases h
    rfl
  | cons e es ih =>
    intro vals h
    simp only [List.length_cons, List.replicate_succ, eval_values_row]
      at h ⊢
    cases hev : env.evaluate_stateless e with
    | error err => rw [hev] at h; simp at h
    | ok ev =>
      rw [hev] at h
      dsimp only at h ⊢
      cases hti : env.try_into ev with
      | error err => rw [hti] at h; simp at h
      | ok v =>
        rw [hti] at h
        dsimp only at h ⊢
        cases hr : (eval_values_row env
            (List.replicate es.length none) es).2 with
        | error err => rw [hr] at h; simp at h
        | ok vs =>
          rw [hr] at h
          simp at h
          subst h
          simp [ih vs hr]

/-- Helper: on a column-type state with every type inferred, a row's
processing never changes the state. -/
theorem eval_values_row_some_state (env : ValuesEnv E Ev V D) :
    ∀ (es : List E) (dts : List D),
      (eval_values_row env (dts.map some) es).1 = dts.map some := by
  intro es
  induction es with
  | nil => intro dts; cases dts <;> rfl
  | cons e es ih =>
    intro dts
    cases dts with
    | nil => rfl
    | cons dt dts =>
      simp only [List.map_cons, eval_values_row]
      cases env.evaluate_stateless e with
      | error err => rfl
      | ok ev =>
        simp only
        cases env.try_into_value ev dt true with
        | error err => rfl
        | ok v => simp [ih dts]

/-- Helper: on a column-type state with every type inferred, a row's value
is exactly the spec's per-column coercion `coerce_row`. -/
theorem eval_values_row_some_coerce (env : ValuesEnv E Ev V D) :
    ∀ (es : List E) (dts : List D),
      (eval_values_row env (dts.map some) es).2 = coerce_row env dts es := by
  intro es
  induction es with
  | nil => intro dts; cases dts <;> rfl
  | cons e es ih =>
    intro dts
    cases dts with
    | nil => rfl
    | cons dt dts =>
      simp only [List.map_cons, eval_values_row, coerce_row]
      cases env.evaluate_stateless e with
      | error err => rfl
      | ok ev =>
        simp only [except_ok_bind]
        cases env.try_into_value ev dt true with
        | error err => rfl
        | ok v =>
          simp only [except_ok_bind]
          rw [← ih dts]
          cases (eval_values_row env (dts.map some) es).2 <;> rfl

/-- Helper: the stateful scan over the remaining rows, started from a
fully-inferred column-type state, is a plain map: arity mismatches become
the error item, other rows are coerced against the fixed inferred types. -/
theorem into_rows_scan_some (env : ValuesEnv E Ev V D) (first_len : Nat) :
    ∀ (l : List (List E)) (dts : List D),
      into_rows_scan env first_len (dts.map some) l =
        l.map (fun r =>
          if r.length = first_len then coerce_row env dts r
          else .error .numberOfValuesDifferent) := by
  intro l
  induction l with
  | nil => intro dts; rfl
  | cons r rest ih =>
    intro dts
    by_cases hq : r.length = first_len
    · have hq2 : ¬r.length ≠ first_len := by simpa using hq
      simp only [into_rows_scan, if_neg hq2, List.map_cons, if_pos hq,
        eval_values_row_some_coerce, eval_values_row_some_state, ih dts]
    · simp only [into_rows_scan, if_pos hq, List.map_cons, if_neg hq,
        ih dts]

/-- C5 (as amended): when the first row evaluates successfully and each of
its values has a definite type `dts`, each column's type is inferred from
the first row's evaluated values, and every subsequent row is then
processed against exactly those fixed inferred types — a matching-arity
row's item is the lenient per-column coercion `coerce_row env dts`, whose
failures are reported error items; `into_rows` returns a value (no crash)
with one item per tuple.  (Without these hypotheses a still-untyped column
is re-inferred from later rows via `try_into`, see the counterexample.) -/
theorem into_rows_first_row_inference (env : ValuesEnv E Ev V D)
    (first : List E) (rest : List (List E)) (vals : List V) (dts : List D)
    (h1 : (eval_values_row env (List.replicate first.length none) first).2 =
      .ok vals)
    (h2 : vals.map env.get_type = dts.map some) :
    into_rows env (first :: rest) =
      some (.ok vals :: rest.map (fun r =>
          if r.length = first.length then coerce_row env dts r
          else .error .numberOfValuesDifferent),
        values_labels first.length) := by
  have hstate := eval_values_row_infer_state env first vals h1
  rw [h2] at hstate
  have hif : ¬first.length ≠ first.length := by simp
  simp only [into_rows, into_rows_scan, if_neg hif]
  rw [h1, hstate, into_rows_scan_some]

/-- C5 counterexample: `VALUES (0), (2)` where the first row's value `0` is
typeless (NULL-like, `get_type = none`).  The second row's item is
`ok [2]`, produced by the untyped `try_into` re-inference of
`mod.rs:136-141` — even though the typed coercion `try_into_value` fails on
every input, so the second row's value was demonstrably *not* coerced to a
type inferred from the first row, refuting the claim as universally
stated. -/
theorem into_rows_no_first_row_coercion :
    into_rows nullFirstValuesEnv [[0], [2]] =
      some ([.ok [0], .ok [2]], values_labels 1) ∧
    nullFirstValuesEnv.try_into_value 2 () true =
      .error (.other "coercion failed") :=
  ⟨rfl, rfl⟩

/-- C5 witness: `VALUES (1,2), (3,4)` over the concrete environment — the
second row is coerced against the types inferred from `(1,2)`. -/
theorem into_rows_first_row_inference_witness :
    into_rows natValuesEnv [[1, 2], [3, 4]] =
      some (.ok [1, 2] :: [[3, 4]].map (fun r =>
          if r.length = 2 then coerce_row natValuesEnv [(), ()] r
          else .error .numberOfValuesDifferent),
        values_labels 2) :=
  into_rows_first_row_inference natValuesEnv [1, 2] [[3, 4]] [1, 2]
    [(), ()] rfl rfl

/-- Helper: `parse_limit_value` rejects an invalid literal. -/
theorem parse_limit_value_invalid (e : LimitExpr)
    (h : invalid_limit_literal e) :
    parse_limit_value e = .error .invalidLimitOffsetValue := by
  cases e with
  | numberLit q =>
    simp only [invalid_limit_literal] at h
    simp only [parse_limit_value, if_pos h]
  | otherExpr => rfl

/-- Helper: `Limit::new` errors whenever the LIMIT or the OFFSET literal is
invalid. -/
theorem limit_new_error (limit offset : Option LimitExpr)
    (hbad : (∃ e, limit = some e ∧ invalid_limit_literal e) ∨
            (∃ e, offset = some e ∧ invalid_limit_literal e)) :
    ∃ er, Limit.new limit offset = .error er := by
  cases hbad with
  | inl hl =>
    obtain ⟨e, rfl, hinv⟩ := hl
    exact ⟨.invalidLimitOffsetValue,
      by simp [Limit.new, parse_limit_value_invalid e hinv]⟩
  | inr ho =>
    obtain ⟨e, rfl, hinv⟩ := ho
    cases limit with
    | none =>
      exact ⟨.invalidLimitOffsetValue,
        by simp [Limit.new, parse_limit_value_invalid e hinv]⟩
    | some e0 =>
      cases hp : parse_limit_value e0 with
      | error er => exact ⟨er, by simp [Limit.new, hp]⟩
      | ok v =>
        exact ⟨.invalidLimitOffsetValue,
          by simp [Limit.new, hp, parse_limit_value_invalid e hinv]⟩

/-- C6: a query whose LIMIT or OFFSET literal is negative or non-integer
makes `select_with_labels` return an error result — it never returns a
`(labels, stream)` pair whose iteration would surface the error later — on
both the VALUES path and the SELECT path. -/
theorem select_with_labels_invalid_limit
    (env : PipelineEnv E Ev V D A TF J FC) (q : Query E TF J)
    (fc : Option FC) (wl : Bool)
    (hbad : (∃ e, q.limit = some e ∧ invalid_limit_literal e) ∨
            (∃ e, q.offset = some e ∧ invalid_limit_literal e)) :
    ∃ er, select_with_labels env q fc wl = some (.error er) := by
  obtain ⟨er, her⟩ := limit_new_error q.limit q.offset hbad
  cases hq : q.body with
  | values vl =>
    exact ⟨er, by simp [select_with_labels, hq, her]⟩
  | select s =>
    simp only [select_with_labels, hq]
    cases hc : env.fetch_relation_columns s.from_clause.relation with
    | error e => exact ⟨e, by simp [hc]⟩
    | ok columns =>
      cases hr : env.fetch_relation_rows s.from_clause.relation with
      | error e => exact ⟨e, by simp [hc, hr]⟩
      | ok fetched =>
        cases hj : env.fetch_join_columns s.from_clause.joins with
        | error e => exact ⟨e, by simp [hc, hr, hj]⟩
        | ok join_columns =>
          cases hl : compute_labels env s.from_clause.relation columns
              join_columns s.projection wl with
          | error e => exact ⟨e, by simp [hc, hr, hj, hl]⟩
          | ok labels => exact ⟨er, by simp [hc, hr, hj, hl, her]⟩

/-- C6 witness: `VALUES (1)` with `LIMIT -1` and a SELECT query with
`OFFSET 1/2` both fail at construction time. -/
theorem select_with_labels_invalid_limit_witness :
    (∃ er, select_with_labels natPipelineEnv
      { body := .values [[1]], limit := some (.numberLit (-1)),
        offset := none } none true = some (.error er)) ∧
    (∃ er, select_with_labels natPipelineEnv
      { body := .select ⟨⟨(), []⟩, none, [], [], none, []⟩,
        limit := none, offset := some (.numberLit (1 / 2)) } none true =
        some (.error er)) :=
  ⟨select_with_labels_invalid_limit natPipelineEnv _ none true
      (Or.inl ⟨.numberLit (-1), rfl, Or.inl (by norm_num)⟩),
   select_with_labels_invalid_limit natPipelineEnv _ none true
      (Or.inr ⟨.numberLit (1 / 2), rfl, Or.inr (by norm_num)⟩)⟩

/-- C1: for every SELECT (non-VALUES) query the produced row stream is, by
the driver's construction, the fixed composition — fetched base rows
wrapped into `BlendContext`s, then the join chain, then the WHERE filter,
then the aggregator, then the sort, then the blend projection, with
limit/offset applied last; the hypotheses name each stage's (successful)
output and no field of the query can reorder the composition. -/
theorem select_with_labels_stage_order
    (env : PipelineEnv E Ev V D A TF J FC) (q : Query E TF J)
    (s : SelectBody E TF J) (fc : Option FC) (wl : Bool)
    (columns : List String) (fetched : List (Except Error (List V)))
    (join_columns : List (String × List String)) (labels : List String)
    (limit : Limit)
    (joined : List (Except Error (BlendContext (List V))))
    (aggregated sorted : List (Except Error (A × BlendContext (List V))))
    (hbody : q.body = .select s)
    (hcols : env.fetch_relation_columns s.from_clause.relation =
      .ok columns)
    (hrows : env.fetch_relation_rows s.from_clause.relation = .ok fetched)
    (hjc : env.fetch_join_columns s.from_clause.joins = .ok join_columns)
    (hlab : compute_labels env s.from_clause.relation columns join_columns
      s.projection wl = .ok labels)
    (hlim : Limit.new q.limit q.offset = .ok limit)
    (hjoin : env.join_apply s.from_clause.joins
      (join_columns.map (fun p => p.2)) fc
      (wrap_rows env s.from_clause.relation columns fetched) = .ok joined)
    (hagg : env.aggregate_apply s.projection s.group_by s.having fc
      (filter_stage env s.selection fc joined) = .ok aggregated)
    (hsort : env.sort_apply s.order_by fc aggregated = .ok sorted) :
    select_with_labels env q fc wl =
      some (.ok (labels, limit.apply (stream_and_then
        (fun p => env.blend_apply s.projection fc p.1 p.2) sorted))) := by
  simp [select_with_labels, hbody, hcols, hrows, hjc, hlab, hlim, hjoin,
    hagg, hsort]

/-- C1 witness: a concrete one-table SELECT over the pass-through pipeline
environment produces exactly the staged composition's stream. -/
theorem select_with_labels_stage_order_witness :
    select_with_labels natPipelineEnv
      { body := .select ⟨⟨(), []⟩, none, [], [], none, []⟩,
        limit := none, offset := none } none true =
      some (.ok ([], Limit.apply ⟨none, 0⟩ (stream_and_then
        (fun p => natPipelineEnv.blend_apply [] none p.1 p.2)
        [.ok ((), BlendContext.mk "t" ["a"] (some [7]) none)]))) :=
  select_with_labels_stage_order natPipelineEnv _ _ none true
    ["a"] [.ok [7]] [] [] ⟨none, 0⟩
    [.ok (BlendContext.mk "t" ["a"] (some [7]) none)]
    [.ok ((), BlendContext.mk "t" ["a"] (some [7]) none)]
    [.ok ((), BlendContext.mk "t" ["a"] (some [7]) none)]
    rfl rfl rfl rfl rfl rfl rfl rfl rfl

/-- C10: in the `TryFrom<ExprNode> for Expr` conversion, the `Case` arm
`.unwrap()`s the conversions of its operand, its when/then pairs, and its
else branch, so a failing sub-conversion (an unparsable `SqlExpr`) panics
(`none`) — whereas the same failing sub-node under any other variant, or on
its own, propagates the error as `Err`. -/
theorem expr_try_from_case_unwrap_panics (env : AstEnv G F Ag SqlE)
    (s : String) (er : Error) (h : env.parse_expr s = .error er) :
    expr_try_from env
      (.caseE none [(.sqlExpr s, .sqlExpr s)] none) = none ∧
    expr_try_from env (.caseE (some (.sqlExpr s)) [] none) = none ∧
    expr_try_from env (.caseE none [] (some (.sqlExpr s))) = none ∧
    expr_try_from env (ExprNode.sqlExpr s : ExprNode G F Ag) =
      some (.error er) ∧
    expr_try_from env (.isNull (.sqlExpr s)) = some (.error er) ∧
    expr_try_from env (.between (.sqlExpr s) true (.identifier "l")
      (.identifier "h")) = some (.error er) := by
  refine ⟨?_, ?_, ?_, ?_, ?_, ?_⟩ <;>
    simp [expr_try_from, expr_try_from_pairs, h, panicUnwrap, panicBind]

/-- C10 witness: with the always-failing parser, a `Case` holding a
`SqlExpr` panics while the bare `SqlExpr` and other variants report the
error. -/
theorem expr_try_from_case_unwrap_panics_witness :
    expr_try_from failAstEnv
      (.caseE none [(.sqlExpr "", .sqlExpr "")] none) = none ∧
    expr_try_from failAstEnv (.caseE (some (.sqlExpr "")) [] none) = none ∧
    expr_try_from failAstEnv (.caseE none [] (some (.sqlExpr ""))) = none ∧
    expr_try_from failAstEnv (ExprNode.sqlExpr "" :
      ExprNode Unit Unit Unit) = some (.error (.other "parse error")) ∧
    expr_try_from failAstEnv (.isNull (.sqlExpr "")) =
      some (.error (.other "parse error")) ∧
    expr_try_from failAstEnv (.between (.sqlExpr "") true (.identifier "l")
      (.identifier "h")) = some (.error (.other "parse error")) :=
  expr_try_from_case_unwrap_panics failAstEnv "" (.other "parse error") rfl

end GlueSQL
